import Mathlib

/-!
Verification of the fx-fiddle repository: a shallow embedding, in Lean 4, of
the FX-series PLC protocol codec (`cli/fx-fiddle/lib/protocol.py`), the
passive session reconstructor (`protocol-parser/parse.py`) and the ladder
program disassembler (`cli/fx-fiddle/cli/lib/disassembler.py`), together with
theorems settling the specification claims about them.

Bytes are modelled as `Nat` (Python `bytes` elements are 0..255; where the
code masks, we mask identically).  Python functions that can raise are
modelled with `Except`.
-/

namespace FxFiddle

/-! ## Protocol constants (protocol.py lines 16-19, parse.py lines 11-14) -/

def ENQ : Nat := 0x05
def ACK : Nat := 0x06
def STX : Nat := 0x02
def ETX : Nat := 0x03

/-! ## Checksum / framing primitives (protocol.py lines 29-64) -/

/-- `hex_char` (protocol.py line 29): convert a nibble to its ASCII hex code. -/
def hex_char (n : Nat) : Nat :=
  if n < 10 then 0x30 + n else 0x41 + n - 10

/-- `lo_nibble` (protocol.py line 34): `n & 0x0F`. -/
def lo_nibble (n : Nat) : Nat := n &&& 0x0F

/-- `hi_nibble` (protocol.py line 39): `(n >> 4) & 0x0F`. -/
def hi_nibble (n : Nat) : Nat := (n >>> 4) &&& 0x0F

/-- `int_to_hex_chars` (protocol.py lines 44-50): render `value` as
`numChars` ASCII hex character codes, most significant nibble first
(the Python loop runs `i = numChars-1, ..., 0`). -/
def int_to_hex_chars (value : Nat) (numChars : Nat) : List Nat :=
  (List.range numChars).reverse.map (fun i => hex_char ((value >>> (i * 4)) &&& 0x0F))

/-- `calculate_checksum` (protocol.py lines 53-64): sum of the payload
bytes, low byte only, as 2 ASCII hex character codes. -/
def calculate_checksum (payload : List Nat) : List Nat :=
  let checksum := payload.sum &&& 0xFF
  [hex_char (hi_nibble checksum), hex_char (lo_nibble checksum)]

/-- `FxProtocol.create_request` (protocol.py lines 222-245):
`STX ++ payload ++ ETX ++ checksum(payload ++ ETX)`. -/
def create_request (payload : List Nat) : List Nat :=
  STX :: (payload ++ [ETX] ++ calculate_checksum (payload ++ [ETX]))

/-- The errors `parse_response` can raise: an `IndexError` from `response[0]`
on empty input, and the two `ValueError`s of protocol.py lines 114 and 119. -/
inductive FramingError where
  | indexError : FramingError
  | missingSTX : FramingError
  | missingETX : FramingError
deriving DecidableEq

/-- `parse_response` (protocol.py lines 99-133): check the first byte is STX,
find the first ETX (Python `response.find(ETX)`), take the bytes strictly
between as payload and the 2 bytes after ETX as checksum, and recompute the
checksum over payload + ETX. -/
def parse_response (response : List Nat) : Except FramingError (List Nat × Bool) :=
  match response with
  | [] => .error .indexError
  | r0 :: _ =>
    if r0 ≠ STX then .error .missingSTX
    else
      match response.findIdx? (fun b => b = ETX) with
      | none => .error .missingETX
      | some etxPos =>
        let payload := (response.drop 1).take (etxPos - 1)
        let checksum := (response.drop (etxPos + 1)).take 2
        let calculated := calculate_checksum (payload ++ [ETX])
        .ok (payload, calculated == checksum)

/-- The payload built by `FxProtocol.set_bit` (protocol.py lines 388-422):
`'E7'` then the address low byte as 2 ASCII hex chars, then the high byte
as 2 ASCII hex chars.  (The surrounding handshake and transmission are
external I/O; this is the payload-construction part of `set_bit`.) -/
def set_bit_payload (address : Nat) : List Nat :=
  let lowByte := address &&& 0xFF
  let highByte := (address >>> 8) &&& 0xFF
  [0x45, 0x37] ++ int_to_hex_chars lowByte 2 ++ int_to_hex_chars highByte 2

/-! ## The word-valued read response decoder

`read_memory` (protocol.py lines 494-509), `read_flash` (lines 545-560) and
`read_dev` (lines 700-715) all end with the same literal loop over the
response bytes: `for i in range(0, len(response), 4)`, and when
`i + 4 <= len(response)` decode `response[i:i+2]` as the high-byte hex chars
and `response[i+2:i+4]` as the low-byte hex chars, forming
`int(low ++ high, 16)`.  `bytes.decode('ascii')` raises on a byte ≥ 0x80 and
`int(_, 16)` raises on a non-hex-digit string; both abort the call, which we
model as a single error.  (Python's `int(_, 16)` also tolerates surrounding
whitespace, a sign and underscores; those forms never arise from 2-character
slices of hex data and are modelled as errors.) -/

/-- Value of one ASCII hex digit character code, if it is one and is valid
ASCII (`bytes.decode('ascii')` then `int(_, 16)`). -/
def hexDigitValue (c : Nat) : Option Nat :=
  if 0x30 ≤ c ∧ c ≤ 0x39 then some (c - 0x30)
  else if 0x41 ≤ c ∧ c ≤ 0x46 then some (c - 0x41 + 10)
  else if 0x61 ≤ c ∧ c ≤ 0x66 then some (c - 0x61 + 10)
  else none

/-- `int(word_str, 16)` where `word_str = low_byte_str + high_byte_str` is
rebuilt from one 4-character group `[h1, h2, l1, l2]` of the response:
the decoded word is `lo * 256 + hi`. -/
def decodeWordGroup (h1 h2 l1 l2 : Nat) : Option Nat :=
  match hexDigitValue l1, hexDigitValue l2, hexDigitValue h1, hexDigitValue h2 with
  | some a, some b, some c, some d => some (((a * 16 + b) * 16 + c) * 16 + d)
  | _, _, _, _ => none

/-- One Python-level exception aborting a decode. -/
inductive PyError where
  | valueError : PyError
deriving DecidableEq

/-- The shared response-decode loop of `read_memory` / `read_flash` /
`read_dev`: groups of 4 response bytes, trailing bytes (when `i + 4 >
len(response)`) skipped. -/
def parse_read_response : List Nat → Except PyError (List Nat)
  | h1 :: h2 :: l1 :: l2 :: rest =>
    match decodeWordGroup h1 h2 l1 l2 with
    | some v =>
      match parse_read_response rest with
      | .ok vs => .ok (v :: vs)
      | .error e => .error e
    | none => .error .valueError
  | _ => .ok []

/-- Decidable equality for `Except`, so claims can be settled on concrete
runs by `decide`. -/
instance {ε α : Type} [DecidableEq ε] [DecidableEq α] : DecidableEq (Except ε α) :=
  fun a b =>
    match a, b with
    | .ok x, .ok y =>
      if h : x = y then .isTrue (by rw [h])
      else .isFalse (by intro hc; cases hc; exact h rfl)
    | .error x, .error y =>
      if h : x = y then .isTrue (by rw [h])
      else .isFalse (by intro hc; cases hc; exact h rfl)
    | .ok _, .error _ => .isFalse (by intro hc; cases hc)
    | .error _, .ok _ => .isFalse (by intro hc; cases hc)

/-! ## The session reconstructor (protocol-parser/parse.py)

`parse.py` reads the capture JSON (external I/O), then processes the
chronological `(usb.src, usb.capdata)` records through a per-direction
pending-frame store and `parse_message`.  We embed `parse_message` and the
per-record body of `main`'s loop (lines 284-390) as pure functions over the
chunk stream. -/

/-- Python `f"{n:0wX}"`: uppercase hex, left-padded with zeros to `width`. -/
def fmtHex (width n : Nat) : String :=
  let ds := (Nat.toDigits 16 n).map Char.toUpper
  String.mk (List.replicate (width - ds.length) '0' ++ ds)

/-- `bytes.decode('ascii', errors='replace')` on one byte: bytes ≥ 0x80
become U+FFFD. -/
def asciiRepl (b : Nat) : Char :=
  if b < 128 then Char.ofNat b else Char.ofNat 0xFFFD

/-- Python `str.ljust(width, c)`. -/
def ljustChars (cs : List Char) (width : Nat) (c : Char) : List Char :=
  cs ++ List.replicate (width - cs.length) c

/-- Value of one hex digit character, as accepted by `int(_, 16)`
(`0`-`9` → 0..9, `A`-`F` → 10..15, `a`-`f` → 10..15, by code point). -/
def pyHexDigit (c : Char) : Option Nat :=
  let n := c.toNat
  if 0x30 ≤ n ∧ n ≤ 0x39 then some (n - 0x30)
  else if 0x41 ≤ n ∧ n ≤ 0x46 then some (n - 0x41 + 10)
  else if 0x61 ≤ n ∧ n ≤ 0x66 then some (n - 0x61 + 10)
  else none

/-- `int(s, 16)` on a character list: the value when `s` is a nonempty
string of hex digits, `none` (a `ValueError`) otherwise.  (Python also
tolerates surrounding whitespace, a sign and underscores; those forms are
modelled as errors — they cannot arise from the hex-character slices this
parser feeds in.) -/
def pyIntHex (cs : List Char) : Option Nat :=
  match cs with
  | [] => none
  | _ =>
    cs.foldl
      (fun acc c =>
        match acc, pyHexDigit c with
        | some a, some d => some (a * 16 + d)
        | _, _ => none)
      (some 0)

/-- The value-extraction loop of parse.py (lines 91-106 and its three
copies): starting at a given offset, take 4-character groups
`[hi1, hi2, lo1, lo2]`, decode `int(lo ++ hi, 16)` and *skip* groups that
fail to parse (the loop's `try/except: pass`).  Takes the characters from
the offset onward. -/
def parseValueGroups : List Char → List Nat
  | hi1 :: hi2 :: lo1 :: lo2 :: rest =>
    (match pyIntHex [lo1, lo2, hi1, hi2] with
      | some v => v :: parseValueGroups rest
      | none => parseValueGroups rest)
  | _ => []

/-- The dictionary produced by `parse_message`: `what`/`address`/`size` are
always present (possibly `None`); `sum`/`data` only for STX/ETX frames;
`values` only when nonempty.  `none` models an absent key. -/
structure ParsedMsg where
  what : String
  address : Option String := none
  size : Option String := none
  sum : Option String := none
  data : Option String := none
  values : Option (List Nat) := none
deriving DecidableEq

/-- The `E00`/`E01` classification block of `parse_message` (parse.py lines
74-109 and 111-146, identical except for the `what` tag): address is chars
3..7, the size field (chars 7..9) is parsed as hex — raising `ValueError`
on garbage — and doubled (words to bytes); values are extracted from char 9
onward only when the payload is longer than 9. -/
def classify_read_cmd (what : String) (payload : List Nat)
    (payloadAscii : List Char) (base : ParsedMsg) : Except PyError ParsedMsg :=
  if 9 ≤ payload.length then
    let addressHex := String.mk ((payloadAscii.drop 3).take 4)
    match pyIntHex ((payloadAscii.drop 7).take 2) with
    | none => .error .valueError
    | some sizeInt =>
      let sizeBytes := sizeInt * 2
      let r1 := { base with
        what := what, address := some addressHex, size := some (fmtHex 2 sizeBytes) }
      if 9 < payload.length then
        let values := parseValueGroups (payloadAscii.drop 9)
        .ok (if values ≠ [] then { r1 with values := some values } else r1)
      else .ok r1
  else .ok { base with what := what }

/-- The `E10`/`E11` classification block (parse.py lines 148-180 and
182-214): like `classify_read_cmd` but the size field is already in bytes
(not doubled), and the value loop runs whenever the payload length is ≥ 9. -/
def classify_write_cmd (what : String) (payload : List Nat)
    (payloadAscii : List Char) (base : ParsedMsg) : Except PyError ParsedMsg :=
  if 9 ≤ payload.length then
    let addressHex := String.mk ((payloadAscii.drop 3).take 4)
    match pyIntHex ((payloadAscii.drop 7).take 2) with
    | none => .error .valueError
    | some sizeInt =>
      let r1 := { base with
        what := what, address := some addressHex, size := some (fmtHex 2 sizeInt) }
      let values := parseValueGroups (payloadAscii.drop 9)
      .ok (if values ≠ [] then { r1 with values := some values } else r1)
  else .ok { base with what := what }

/-- The `E7`/`E8` bit-operation classification block (parse.py lines
222-242): address low-byte chars are 2..4, high-byte chars are 4..6 when
present, else `"00"`; the recombined address is high ++ low.  (The inner
`len >= 5` test of the source is subsumed by the guard that selected this
branch.) -/
def classify_bit_cmd (what : String) (payloadAscii : List Char)
    (base : ParsedMsg) : ParsedMsg :=
  let addressLo := String.mk ((payloadAscii.drop 2).take 2)
  let addressHi :=
    if 6 ≤ payloadAscii.length then String.mk ((payloadAscii.drop 4).take 2) else "00"
  { base with what := what, address := some (addressHi ++ addressLo) }

/-- The fall-through block of `parse_message` (parse.py lines 254-264):
multi-byte data that is not an STX frame with an ETX. -/
def parse_message_bottom (capdata : List Nat) : ParsedMsg :=
  if 1 < capdata.length then
    let startIdx := if capdata.getD 0 0 = STX then 1 else 0
    if startIdx + 2 ≤ capdata.length then
      { what := "U_" ++ String.mk (((capdata.drop startIdx).take 2).map asciiRepl) }
    else
      { what := "U_" ++
          String.mk (ljustChars ((capdata.drop startIdx).map asciiRepl) 2 '0') }
  else { what := "U_00" }

/-- `parse_message` (parse.py lines 28-264).  Single bytes classify as
ENQ/ACK/`U_xx`; an STX-led chunk of length ≥ 3 containing an ETX beyond
index 0 is classified by payload content — unless it is a PLC frame echoing
a host request of kind DR/MR/TYP/VER, which inherits that kind; everything
else falls through to `parse_message_bottom`.  The hex parse of a size
field can raise `ValueError`. -/
def parse_message (capdata : List Nat) (requestType : Option String)
    (who : String) : Except PyError ParsedMsg :=
  if capdata.length = 1 then
    let b := capdata.getD 0 0
    if b = ENQ then .ok { what := "ENQ" }
    else if b = ACK then .ok { what := "ACK" }
    else .ok { what := "U_" ++ fmtHex 2 b }
  else if 3 ≤ capdata.length ∧ capdata.getD 0 0 = STX then
    match (capdata.drop 1).findIdx? (fun b => b = ETX) with
    | none => .ok (parse_message_bottom capdata)
    | some j =>
      let etxPos := j + 1
      let payload := (capdata.drop 1).take (etxPos - 1)
      let checksum :=
        if etxPos + 3 ≤ capdata.length then (capdata.drop (etxPos + 1)).take 2 else []
      let payloadAscii := payload.map asciiRepl
      let checksumAscii := String.mk (checksum.map asciiRepl)
      let base : ParsedMsg :=
        { what := "UNK", sum := some checksumAscii, data := some (String.mk payloadAscii) }
      if who = "plc" ∧ requestType ∈ [some "DR", some "MR", some "TYP", some "VER"] then
        .ok { base with what := requestType.getD "UNK" }
      else if 3 ≤ payload.length then
        if "E00".toList.isPrefixOf payloadAscii then
          classify_read_cmd "DR" payload payloadAscii base
        else if "E01".toList.isPrefixOf payloadAscii then
          classify_read_cmd "MR" payload payloadAscii base
        else if "E10".toList.isPrefixOf payloadAscii then
          classify_write_cmd "DW" payload payloadAscii base
        else if "E11".toList.isPrefixOf payloadAscii then
          classify_write_cmd "MW" payload payloadAscii base
        else if payloadAscii = "00E0202".toList then .ok { base with what := "TYP" }
        else if payloadAscii = "00ECA02".toList then .ok { base with what := "VER" }
        else if "E7".toList.isPrefixOf payloadAscii ∧ 5 ≤ payloadAscii.length then
          .ok (classify_bit_cmd "BS" payloadAscii base)
        else if "E8".toList.isPrefixOf payloadAscii ∧ 5 ≤ payloadAscii.length then
          .ok (classify_bit_cmd "BC" payloadAscii base)
        else
          .ok { base with what := "U_" ++ String.mk (payloadAscii.take 2) }
      else
        .ok { base with
          what := "U_" ++ String.mk ((ljustChars payloadAscii 2 '0').take 2) }
  else .ok (parse_message_bottom capdata)

/-- `' '.join(f"{b:02X}" for b in data)` (parse.py lines 24-26). -/
def bytes_to_hex_space_separated (data : List Nat) : String :=
  String.intercalate " " (data.map (fmtHex 2))

/-- `is_host` (parse.py lines 20-22) and the `who` tag of the main loop. -/
def whoOf (src : String) : String :=
  if src = "host" then "host" else "plc"

/-- The reconstructor's mutable state: `pending_frames` (one optional byte
buffer keyed by direction) and `last_host_request`. -/
structure SessionState where
  pendingHost : Option (List Nat) := none
  pendingPlc : Option (List Nat) := none
  lastHostRequest : Option String := none
deriving DecidableEq

def getPending (st : SessionState) (who : String) : Option (List Nat) :=
  if who = "host" then st.pendingHost else st.pendingPlc

def setPending (st : SessionState) (who : String) (v : Option (List Nat)) :
    SessionState :=
  if who = "host" then { st with pendingHost := v } else { st with pendingPlc := v }

def setLast (st : SessionState) (v : Option String) : SessionState :=
  { st with lastHostRequest := v }

/-- One emitted output line of the reconstructor: direction, the parsed
message fields, and the raw frame bytes as space-separated hex. -/
structure Record where
  who : String
  msg : ParsedMsg
  capdata : String
deriving DecidableEq

/-- The request kinds that update `last_host_request` (parse.py lines 339
and 386). -/
def requestKinds : List String := ["DR", "MR", "TYP", "VER", "BS", "BC"]

/-- The body of `main`'s per-record loop (parse.py lines 284-390) for one
`(usb.src, usb.capdata)` chunk: pending-frame reassembly, classification
via `parse_message`, the `last_host_request` update, and at most one
emitted record.  A `ValueError` from `parse_message` aborts the run, as an
uncaught exception does in the source. -/
def processRecordBody (st : SessionState) (who : String) (capdata : List Nat) :
    Except PyError (SessionState × Option Record) :=
  match getPending st who with
  | some pendingBytes =>
    let pending := pendingBytes ++ capdata
    if STX ∈ pending ∧ ETX ∈ pending then
      if pending.indexOf ETX + 3 ≤ pending.length then
        let requestType := if who = "plc" then st.lastHostRequest else none
        match parse_message pending requestType who with
        | .error e => .error e
        | .ok parsed =>
          let newLast :=
            if who = "host" ∧ parsed.what ∈ requestKinds then some parsed.what
            else st.lastHostRequest
          .ok (setLast (setPending st who none) newLast,
            some { who := who, msg := parsed,
                   capdata := bytes_to_hex_space_separated pending })
      else .ok (setPending st who (some pending), none)
    else .ok (setPending st who (some pending), none)
  | none =>
    if STX ∈ capdata ∧ ETX ∉ capdata then
      .ok (setPending st who (some capdata), none)
    else
      let isAck := capdata.length = 1 ∧ capdata.getD 0 0 = ACK
      let requestType := if who = "plc" ∧ ¬isAck then st.lastHostRequest else none
      match parse_message capdata requestType who with
      | .error e => .error e
      | .ok parsed =>
        let newLast :=
          if who = "host" ∧ parsed.what ∈ requestKinds then some parsed.what
          else st.lastHostRequest
        .ok (setLast st newLast,
          some { who := who, msg := parsed,
                 capdata := bytes_to_hex_space_separated capdata })

/-- One loop iteration: compute `who` from `usb.src` (parse.py line 296) and
run the body. -/
def processRecord (st : SessionState) (src : String) (capdata : List Nat) :
    Except PyError (SessionState × Option Record) :=
  processRecordBody st (whoOf src) capdata

/-- Run the reconstructor over a whole chunk stream, collecting the emitted
records in order. -/
def processChunks (st : SessionState) :
    List (String × List Nat) → Except PyError (SessionState × List Record)
  | [] => .ok (st, [])
  | (src, capdata) :: rest =>
    match processRecord st src capdata with
    | .error e => .error e
    | .ok (st1, orec) =>
      match processChunks st1 rest with
      | .error e => .error e
      | .ok (st2, recs) => .ok (st2, orec.toList ++ recs)

/-! ## The instruction disassembler (cli/fx-fiddle/cli/lib/disassembler.py)

The lookup dictionaries become `Nat → Option _` functions (the unused
description strings of the source tuples are dropped; decode only reads the
mnemonic, and for the basic-bit table also the operand class). -/

/-- `SPECIAL_INSTRUCTIONS` (disassembler.py lines 135-138). -/
def SPECIAL_INSTRUCTIONS (w : Nat) : Option String :=
  if w = 0x000F then some "END"
  else if w = 0xF7FF then some "RET"
  else none

/-- `STACK_LOGIC_INSTRUCTIONS` (disassembler.py lines 125-132). -/
def STACK_LOGIC_INSTRUCTIONS (w : Nat) : Option String :=
  if w = 0xFFFA then some "MPS"
  else if w = 0xFFFB then some "MRD"
  else if w = 0xFFFC then some "MPP"
  else if w = 0xFFF9 then some "ORB"
  else if w = 0xFFF8 then some "ANB"
  else if w = 0xFFFD then some "INV"
  else none

/-- `BASIC_BIT_INSTRUCTIONS` (disassembler.py lines 11-122): high byte ↦
(mnemonic, operand class). -/
def BASIC_BIT_INSTRUCTIONS (w : Nat) : Option (String × String) :=
  if w = 0x20 then some ("LD", "S")
  else if w = 0x24 then some ("LD", "X")
  else if w = 0x26 then some ("LD", "TS")
  else if w = 0x28 then some ("LD", "M")
  else if w = 0x29 then some ("LD", "M")
  else if w = 0x2A then some ("LD", "M")
  else if w = 0x2B then some ("LD", "M")
  else if w = 0x2C then some ("LD", "M")
  else if w = 0x2D then some ("LD", "M")
  else if w = 0x2E then some ("LD", "CS")
  else if w = 0x2F then some ("LD", "M8")
  else if w = 0x30 then some ("LDI", "S")
  else if w = 0x34 then some ("LDI", "X")
  else if w = 0x36 then some ("LDI", "TS")
  else if w = 0x38 then some ("LDI", "M")
  else if w = 0x39 then some ("LDI", "M")
  else if w = 0x3A then some ("LDI", "M")
  else if w = 0x3B then some ("LDI", "M")
  else if w = 0x3C then some ("LDI", "M")
  else if w = 0x3D then some ("LDI", "M")
  else if w = 0x3E then some ("LDI", "CS")
  else if w = 0x3F then some ("LDI", "M8")
  else if w = 0x40 then some ("AND", "S")
  else if w = 0x44 then some ("AND", "X")
  else if w = 0x46 then some ("AND", "TS")
  else if w = 0x48 then some ("AND", "M")
  else if w = 0x49 then some ("AND", "M")
  else if w = 0x4A then some ("AND", "M")
  else if w = 0x4B then some ("AND", "M")
  else if w = 0x4C then some ("AND", "M")
  else if w = 0x4D then some ("AND", "M")
  else if w = 0x4E then some ("AND", "CS")
  else if w = 0x50 then some ("ANI", "S")
  else if w = 0x54 then some ("ANI", "X")
  else if w = 0x56 then some ("ANI", "TS")
  else if w = 0x58 then some ("ANI", "M")
  else if w = 0x59 then some ("ANI", "M")
  else if w = 0x5A then some ("ANI", "M")
  else if w = 0x5B then some ("ANI", "M")
  else if w = 0x5C then some ("ANI", "M")
  else if w = 0x5D then some ("ANI", "M")
  else if w = 0x5E then some ("ANI", "CS")
  else if w = 0x60 then some ("OR", "S")
  else if w = 0x64 then some ("OR", "X")
  else if w = 0x66 then some ("OR", "TS")
  else if w = 0x68 then some ("OR", "M")
  else if w = 0x69 then some ("OR", "M")
  else if w = 0x6A then some ("OR", "M")
  else if w = 0x6B then some ("OR", "M")
  else if w = 0x6C then some ("OR", "M")
  else if w = 0x6D then some ("OR", "M")
  else if w = 0x6E then some ("OR", "CS")
  else if w = 0x70 then some ("ORI", "S")
  else if w = 0x74 then some ("ORI", "X")
  else if w = 0x76 then some ("ORI", "TS")
  else if w = 0x78 then some ("ORI", "M")
  else if w = 0x79 then some ("ORI", "M")
  else if w = 0x7A then some ("ORI", "M")
  else if w = 0x7B then some ("ORI", "M")
  else if w = 0x7C then some ("ORI", "M")
  else if w = 0x7D then some ("ORI", "M")
  else if w = 0x7E then some ("ORI", "CS")
  else if w = 0xC0 then some ("OUT", "S")
  else if w = 0xC4 then some ("OUT", "Y")
  else if w = 0xC5 then some ("OUT", "Y")
  else if w = 0xC6 then some ("OUT", "T")
  else if w = 0xC8 then some ("OUT", "M")
  else if w = 0xC9 then some ("OUT", "M")
  else if w = 0xCA then some ("OUT", "M")
  else if w = 0xCB then some ("OUT", "M")
  else if w = 0xCC then some ("OUT", "M")
  else if w = 0xCD then some ("OUT", "M")
  else if w = 0xCE then some ("OUT", "C")
  else if w = 0xD0 then some ("SET", "S")
  else if w = 0xD4 then some ("SET", "Y")
  else if w = 0xD5 then some ("SET", "Y")
  else if w = 0xD8 then some ("SET", "M")
  else if w = 0xD9 then some ("SET", "M")
  else if w = 0xDA then some ("SET", "M")
  else if w = 0xDB then some ("SET", "M")
  else if w = 0xDC then some ("SET", "M")
  else if w = 0xDD then some ("SET", "M")
  else if w = 0xE0 then some ("RST", "S")
  else if w = 0xE4 then some ("RST", "Y")
  else if w = 0xE5 then some ("RST", "Y")
  else if w = 0xE6 then some ("RST", "T")
  else if w = 0xE8 then some ("RST", "M")
  else if w = 0xE9 then some ("RST", "M")
  else if w = 0xEA then some ("RST", "M")
  else if w = 0xEB then some ("RST", "M")
  else if w = 0xEC then some ("RST", "M")
  else if w = 0xED then some ("RST", "M")
  else if w = 0xEE then some ("RST", "C")
  else none

/-- `EXTENDED_BIT_INSTRUCTIONS` (disassembler.py lines 141-154). -/
def EXTENDED_BIT_INSTRUCTIONS (w : Nat) : Option String :=
  if w = 0x01C2 then some "LD"
  else if w = 0x01C3 then some "LDI"
  else if w = 0x01C4 then some "AND"
  else if w = 0x01C5 then some "ANI"
  else if w = 0x01C6 then some "OR"
  else if w = 0x01C7 then some "ORI"
  else if w = 0x0002 then some "OUT"
  else if w = 0x0003 then some "SET"
  else if w = 0x0004 then some "RST"
  else if w = 0x0005 then some "OUT"
  else if w = 0x0006 then some "SET"
  else if w = 0x0007 then some "RST"
  else none

/-- `PULSED_INSTRUCTIONS` (disassembler.py lines 157-164). -/
def PULSED_INSTRUCTIONS (w : Nat) : Option String :=
  if w = 0x01CA then some "LDP"
  else if w = 0x01CB then some "LDF"
  else if w = 0x01CC then some "ANDP"
  else if w = 0x01CD then some "ANDF"
  else if w = 0x01CE then some "ORP"
  else if w = 0x01CF then some "ORF"
  else none

/-- `COMPARE_INSTRUCTIONS` (disassembler.py lines 167-178). -/
def COMPARE_INSTRUCTIONS (w : Nat) : Option String :=
  if w = 0x01D0 then some "LD="
  else if w = 0x01D2 then some "LD>"
  else if w = 0x01D4 then some "LD<"
  else if w = 0x01DA then some "LD<="
  else if w = 0x01DC then some "LD>="
  else if w = 0x01E0 then some "AND="
  else if w = 0x01E2 then some "AND>"
  else if w = 0x01E4 then some "AND<"
  else if w = 0x01EA then some "AND<="
  else if w = 0x01EC then some "AND>="
  else none

/-- `APPLICATION_INSTRUCTIONS` (disassembler.py lines 181-192). -/
def APPLICATION_INSTRUCTIONS (w : Nat) : Option String :=
  if w = 0x0028 then some "MOV"
  else if w = 0x1028 then some "MOVP"
  else if w = 0x0038 then some "ADD"
  else if w = 0x1038 then some "ADDP"
  else if w = 0x003A then some "SUB"
  else if w = 0x103A then some "SUBP"
  else if w = 0x003C then some "MUL"
  else if w = 0x103C then some "MULP"
  else if w = 0x003E then some "DIV"
  else if w = 0x103E then some "DIVP"
  else none

/-- `PROGRAM_CONTROL_INSTRUCTIONS` (disassembler.py lines 195-198). -/
def PROGRAM_CONTROL_INSTRUCTIONS (w : Nat) : Option String :=
  if w = 0x0010 then some "CJ"
  else if w = 0x0012 then some "CALL"
  else none

/-- `OPERAND_TYPES` (disassembler.py lines 209-215). -/
def OPERAND_TYPES (w : Nat) : Option String :=
  if w = 0x80 then some "K"
  else if w = 0x82 then some "D"
  else if w = 0x84 then some "Kn"
  else if w = 0x86 then some "T/C"
  else if w = 0x88 then some "P"
  else none

/-- Python `f"{n:o}"`: octal rendering, no padding. -/
def fmtOct (n : Nat) : String :=
  String.mk (Nat.toDigits 8 n)

/-- `decode_operand` (disassembler.py lines 217-277): decode one tagged
operand at `index`, returning the rendered operand and the number of words
consumed. -/
def decode_operand (words : List Nat) (index : Nat) (isTimerConstant : Bool) :
    String × Nat :=
  if words.length ≤ index then ("???", 0)
  else
    let word1 := words.getD index 0
    let operandType := (word1 >>> 8) &&& 0xFF
    let lowByte := word1 &&& 0xFF
    match OPERAND_TYPES operandType with
    | none => ("Unknown(" ++ fmtHex 4 word1 ++ ")", 1)
    | some typeName =>
      if words.length ≤ index + 1 then (typeName ++ "???", 1)
      else
        let word2 := words.getD (index + 1) 0
        if operandType = 0x80 then
          let value :=
            if isTimerConstant then lowByte + (word2 &&& 0xFF) * 0x100
            else (word2 <<< 8) ||| lowByte
          ("K" ++ Nat.repr value, 2)
        else if operandType = 0x82 then
          ("D" ++ Nat.repr ((word2 <<< 8) ||| lowByte), 2)
        else if operandType = 0x84 then
          ("K" ++ Nat.repr word2 ++ "M" ++ Nat.repr lowByte, 2)
        else if operandType = 0x86 then
          let hiByte2 := (word2 >>> 8) &&& 0xFF
          let loByte2 := word2 &&& 0xFF
          if hiByte2 = 0x80 then
            ("D" ++ Nat.repr (8000 + (lowByte + (loByte2 <<< 8)) / 2), 2)
          else if hiByte2 = 0x82 then
            ("C" ++ Nat.repr ((lowByte + (loByte2 <<< 8)) / 2), 2)
          else if hiByte2 = 0x84 then
            ("T" ++ Nat.repr ((lowByte + (loByte2 <<< 8)) / 2), 2)
          else if hiByte2 = 0x86 then
            ("D" ++ Nat.repr ((lowByte + (loByte2 <<< 8)) / 2), 2)
          else if hiByte2 = 0x88 then
            ("D" ++ Nat.repr (1000 + (lowByte + (loByte2 <<< 8)) / 2), 2)
          else
            (typeName ++ fmtHex 2 lowByte ++ ":" ++ fmtHex 4 word2, 2)
        else
          ("P" ++ Nat.repr lowByte, 2)

/-- `decode_extended_bit_operand` (disassembler.py lines 279-315). -/
def decode_extended_bit_operand (word : Nat) : String :=
  let highByte := (word >>> 8) &&& 0xFF
  let lowByte := word &&& 0xFF
  if highByte = 0xAA then "M" ++ Nat.repr (2048 + lowByte)
  else if highByte = 0xAD ∧ lowByte = 0xB8 then "M3000"
  else if highByte = 0x90 ∧ lowByte = 0xFF then "M8511"
  else if 0xA8 ≤ highByte ∧ highByte ≤ 0xAF then
    "M" ++ Nat.repr (2000 + (highByte - 0xA8) * 256 + lowByte)
  else if 0x90 ≤ highByte ∧ highByte ≤ 0x9F then
    "M" ++ Nat.repr (8000 + (highByte - 0x90) * 32 + lowByte)
  else if 0x80 ≤ highByte ∧ highByte ≤ 0x87 then
    "S" ++ Nat.repr (500 + (highByte - 0x80) * 256 + lowByte)
  else "Unknown(" ++ fmtHex 2 highByte ++ fmtHex 2 lowByte ++ ")"

/-- `format_bit_address` (disassembler.py lines 317-338): X/Y addresses in
octal, everything else decimal. -/
def format_bit_address (operandType : String) (address : Nat) : String :=
  if operandType = "M" then "M" ++ Nat.repr address
  else if operandType = "X" ∨ operandType = "Y" then operandType ++ fmtOct address
  else if operandType = "S" then "S" ++ Nat.repr address
  else if operandType = "TS" then "TS" ++ Nat.repr address
  else if operandType = "CS" then "CS" ++ Nat.repr address
  else if operandType = "T" then "T" ++ Nat.repr address
  else if operandType = "C" then "C" ++ Nat.repr address
  else operandType ++ Nat.repr address

/-- `get_m_base_address` (disassembler.py lines 340-355). -/
def get_m_base_address (highByte : Nat) : Nat :=
  if highByte = 0x28 then 0
  else if highByte = 0x29 then 256
  else if highByte = 0x2A then 512
  else if highByte = 0x2B then 768
  else if highByte = 0x2C then 1024
  else if highByte = 0x2D then 1280
  else 0

/-- The trailing tiers of `decode_instruction` (disassembler.py lines
458-500): program control, `OUT T`/`OUT C`, `RST T/C`, and the final
`Unknown` fallback.  Split out because Python control flow falls through to
these checks from the application-instruction tier. -/
def decode_instruction_tail (words : List Nat) (index : Nat)
    (word lowByte : Nat) : String × Nat :=
  match PROGRAM_CONTROL_INSTRUCTIONS word with
  | some instr =>
    if words.length ≤ index + 2 then (instr ++ " ???", 1)
    else
      let r := decode_operand words (index + 1) false
      (instr ++ " " ++ r.1, 1 + r.2)
  | none =>
  if word &&& 0xFF00 = 0x0600 then
    if words.length ≤ index + 2 then ("OUT T" ++ Nat.repr lowByte ++ " ???", 1)
    else
      let preset := decode_operand words (index + 1) true
      ("OUT T" ++ Nat.repr lowByte ++ " " ++ preset.1, 1 + preset.2)
  else if word &&& 0xFF00 = 0x0E00 then
    if words.length ≤ index + 2 then ("OUT C" ++ Nat.repr lowByte ++ " ???", 1)
    else
      let preset := decode_operand words (index + 1) true
      ("OUT C" ++ Nat.repr lowByte ++ " " ++ preset.1, 1 + preset.2)
  else if word = 0x000C then
    if words.length ≤ index + 1 then ("RST T/C ???", 1)
    else
      let nextWord := words.getD (index + 1) 0
      let nextHigh := (nextWord >>> 8) &&& 0xFF
      let nextLow := nextWord &&& 0xFF
      if nextHigh = 0x86 then ("RST T" ++ Nat.repr nextLow, 2)
      else if nextHigh = 0x8E then ("RST C" ++ Nat.repr nextLow, 2)
      else ("RST T/C Unknown(" ++ fmtHex 4 nextWord ++ ")", 2)
  else ("Unknown(" ++ fmtHex 4 word ++ ")", 1)

/-- The multi-word tiers of `decode_instruction` (disassembler.py lines
408-456): extended-bit, pulsed, compare and application instructions,
falling through to `decode_instruction_tail`. -/
def decode_instruction_multi (words : List Nat) (index : Nat)
    (word lowByte : Nat) : String × Nat :=
  match EXTENDED_BIT_INSTRUCTIONS word with
  | some instr =>
    if words.length ≤ index + 1 then (instr ++ " Extended(???)", 1)
    else (instr ++ " " ++ decode_extended_bit_operand (words.getD (index + 1) 0), 2)
  | none =>
  match PULSED_INSTRUCTIONS word with
  | some instr =>
    if words.length ≤ index + 1 then (instr ++ " ???", 1)
    else (instr ++ " " ++ decode_extended_bit_operand (words.getD (index + 1) 0), 2)
  | none =>
  match COMPARE_INSTRUCTIONS word with
  | some instr =>
    if words.length ≤ index + 4 then (instr ++ " ???", 1)
    else
      let r1 := decode_operand words (index + 1) false
      let r2 := decode_operand words (index + 1 + r1.2) false
      (instr ++ " " ++ r1.1 ++ " " ++ r2.1, 1 + r1.2 + r2.2)
  | none =>
  match APPLICATION_INSTRUCTIONS word with
  | some instr =>
    if instr = "MOV" ∨ instr = "MOVP" then
      if words.length ≤ index + 4 then (instr ++ " ???", 1)
      else
        let source := decode_operand words (index + 1) true
        let dest := decode_operand words (index + 1 + source.2) false
        (instr ++ " " ++ source.1 ++ " " ++ dest.1, 1 + source.2 + dest.2)
    else if instr ∈ ["ADD", "ADDP", "SUB", "SUBP", "MUL", "MULP", "DIV", "DIVP"] then
      if words.length ≤ index + 6 then (instr ++ " ???", 1)
      else
        let source1 := decode_operand words (index + 1) false
        let source2 := decode_operand words (index + 1 + source1.2) false
        let dest := decode_operand words (index + 1 + source1.2 + source2.2) false
        (instr ++ " " ++ source1.1 ++ " " ++ source2.1 ++ " " ++ dest.1,
         1 + source1.2 + source2.2 + dest.2)
    else decode_instruction_tail words index word lowByte
  | none => decode_instruction_tail words index word lowByte

/-- `decode_instruction` (disassembler.py lines 357-500): decode the
instruction at `index`, returning the rendered text and the number of words
consumed (0 only past the end of the list). -/
def decode_instruction (words : List Nat) (index : Nat) : String × Nat :=
  if words.length ≤ index then ("End of program", 0)
  else
    let word := words.getD index 0
    match SPECIAL_INSTRUCTIONS word with
    | some instr => (instr, 1)
    | none =>
    match STACK_LOGIC_INSTRUCTIONS word with
    | some instr => (instr, 1)
    | none =>
    let highByte := (word >>> 8) &&& 0xFF
    let lowByte := word &&& 0xFF
    match BASIC_BIT_INSTRUCTIONS highByte with
    | some (instr, operandType) =>
      if operandType = "M" then
        (instr ++ " " ++
          format_bit_address operandType (get_m_base_address highByte + lowByte), 1)
      else if operandType = "M8" then
        (instr ++ " M" ++ Nat.repr (8000 + lowByte), 1)
      else if operandType = "X" ∧ highByte = 0x24 ∧ lowByte = 0x3F then
        (instr ++ " X77", 1)
      else (instr ++ " " ++ format_bit_address operandType lowByte, 1)
    | none =>
    if highByte &&& 0xF0 = 0xB0 then ("LABEL P" ++ Nat.repr lowByte, 1)
    else if words.length ≤ index + 1 then ("Unknown(" ++ fmtHex 4 word ++ ")", 1)
    else decode_instruction_multi words index word lowByte

/-- The driving loop of `disassemble_program` (disassembler.py lines
502-522), with an explicit fuel argument standing in for Python's
unbounded `while`: `words.length + 1` steps always suffice because every
step with `index < len(words)` consumes at least one word
(`decode_progress`), and the loop's `words_used == 0` break is kept.  Each
emitted pair carries `words[start : start + words_used]`. -/
def disassemble_loop (words : List Nat) : Nat → Nat → List (List Nat × String)
  | _, 0 => []
  | index, fuel + 1 =>
    if words.length ≤ index then []
    else if (decode_instruction words index).2 = 0 then []
    else
      ((words.drop index).take (decode_instruction words index).2,
        (decode_instruction words index).1)
        :: disassemble_loop words (index + (decode_instruction words index).2) fuel

/-- `disassemble_program` (disassembler.py lines 502-522). -/
def disassemble_program (words : List Nat) : List (List Nat × String) :=
  disassemble_loop words 0 (words.length + 1)

/-! ## Helper lemmas about `findIdx?` -/

theorem findIdx?_eq_of_first {x : Nat} :
    ∀ (l1 : List Nat), x ∉ l1 → ∀ (rest : List Nat) (i : Nat),
      (l1 ++ x :: rest).findIdx? (fun b => b = x) i = some (i + l1.length) := by
  intro l1
  induction l1 with
  | nil =>
    intro _ rest i
    simp [List.findIdx?_cons]
  | cons a t ih =>
    intro h rest i
    have ha : a ≠ x := fun hax => h (hax ▸ List.mem_cons_self a t)
    have ht : x ∉ t := fun hxt => h (List.mem_cons_of_mem a hxt)
    simp only [List.cons_append, List.findIdx?_cons, decide_eq_true_eq]
    rw [if_neg ha, ih ht rest (i + 1)]
    simp only [List.length_cons]
    congr 1
    omega

theorem findIdx?_eq_none_of_not_mem {x : Nat} {l : List Nat} (h : x ∉ l) :
    l.findIdx? (fun b => b = x) = none := by
  rw [List.findIdx?_eq_none_iff]
  intro y hy
  simp only [decide_eq_false_iff_not]
  exact fun hyx => h (hyx ▸ hy)

/-- On a list shaped `pfx ++ x :: rest` with `x ∉ pfx`, `parse_response`-style
slicing around the first `x` is determined. -/
theorem drop_append_cons (pfx rest : List Nat) (x : Nat) :
    (pfx ++ x :: rest).drop (pfx.length + 1) = rest := by
  have : pfx ++ x :: rest = (pfx ++ [x]) ++ rest := by simp
  rw [this]
  have hlen : (pfx ++ [x]).length = pfx.length + 1 := by simp
  rw [← hlen, List.drop_left]

/-! ## Claim C1 -/

/-- **C1** (corrected): the claimed identity
`parse_response (create_request p) = (p, true)` fails when the payload `p`
itself contains the ETX byte 0x03: `parse_response` cuts the payload at the
*first* ETX of the whole frame.  Concretely, for `p = [0x03]` the parse
returns the empty payload with an invalid checksum flag. -/
theorem c1_counterexample :
    parse_response (create_request [0x03]) = .ok ([], false) ∧
    parse_response (create_request [0x03]) ≠ .ok ([0x03], true) := by
  constructor <;> decide

/-- **C1** (amended): for every payload `p` that does not contain the ETX
byte, parsing the frame built from `p` returns `p` itself together with a
valid-checksum flag: `parse_response (create_request p) = .ok (p, true)`. -/
theorem c1_round_trip (p : List Nat) (hp : ETX ∉ p) :
    parse_response (create_request p) = .ok (p, true) := by
  have hstx : (STX : Nat) ≠ ETX := by decide
  have hfind :
      (create_request p).findIdx? (fun b => b = ETX) = some (1 + p.length) := by
    show (STX :: (p ++ [ETX] ++ calculate_checksum (p ++ [ETX]))).findIdx?
        (fun b => b = ETX) 0 = some (1 + p.length)
    rw [List.findIdx?_cons]
    rw [if_neg (by simpa using hstx)]
    have : p ++ [ETX] ++ calculate_checksum (p ++ [ETX])
        = p ++ ETX :: calculate_checksum (p ++ [ETX]) := by simp
    rw [this, findIdx?_eq_of_first p hp _ 1]
  simp only [parse_response, create_request]
  try dsimp only
  rw [if_neg (by decide : ¬(STX ≠ STX))]
  simp only [create_request] at hfind
  rw [hfind]
  try dsimp only
  have hpay : ((STX :: (p ++ [ETX] ++ calculate_checksum (p ++ [ETX]))).drop 1).take
      (1 + p.length - 1) = p := by
    simp only [List.drop_succ_cons, List.drop_zero]
    have : 1 + p.length - 1 = p.length := by omega
    rw [this, List.append_assoc, List.take_left]
  rw [hpay]
  have hck : ((STX :: (p ++ [ETX] ++ calculate_checksum (p ++ [ETX]))).drop
      (1 + p.length + 1)) = calculate_checksum (p ++ [ETX]) := by
    have h1 : 1 + p.length + 1 = (p.length + 1) + 1 := by omega
    rw [h1, List.drop_succ_cons]
    have h2 : p ++ [ETX] ++ calculate_checksum (p ++ [ETX])
        = p ++ ETX :: calculate_checksum (p ++ [ETX]) := by simp
    rw [h2, drop_append_cons]
  rw [hck]
  have htake : (calculate_checksum (p ++ [ETX])).take 2
      = calculate_checksum (p ++ [ETX]) := by
    simp [calculate_checksum]
  rw [htake]
  simp

/-- Closed witness for `c1_round_trip` at the payload `[0x45]`. -/
theorem c1_round_trip_witness :
    ETX ∉ [0x45] ∧ parse_response (create_request [0x45]) = .ok ([0x45], true) :=
  ⟨by decide, c1_round_trip [0x45] (by decide)⟩

/-! ## Claim C8 -/

/-- **C8** (confirmed): on every nonempty input, `parse_response` fails with
the missing-STX error when the first byte is not STX; fails with the
missing-ETX error when the first byte is STX but no ETX occurs; and when the
input is STX followed by an ETX-free block `pl`, the first ETX and a tail
`rest`, it returns payload `pl` with the valid flag true iff the (up to) 2
bytes following that ETX equal the checksum recomputed over `pl ++ [ETX]`. -/
theorem c8_parse_response_cases (r : List Nat) (hr : r ≠ []) :
    (r.getD 0 0 ≠ STX → parse_response r = .error .missingSTX) ∧
    (r.getD 0 0 = STX → ETX ∉ r → parse_response r = .error .missingETX) ∧
    (∀ pl rest, r = STX :: (pl ++ ETX :: rest) → ETX ∉ pl →
      parse_response r =
        .ok (pl, calculate_checksum (pl ++ [ETX]) == rest.take 2)) := by
  refine ⟨?_, ?_, ?_⟩
  · intro hne
    match r, hr with
    | r0 :: rtail, _ =>
      simp only [List.getD_cons_zero] at hne
      simp [parse_response, hne]
  · intro hstx hetx
    match r, hr with
    | r0 :: rtail, _ =>
      simp only [List.getD_cons_zero] at hstx
      subst hstx
      simp only [parse_response]
      try dsimp only
      rw [if_neg (by decide : ¬(STX ≠ STX))]
      rw [findIdx?_eq_none_of_not_mem hetx]
  · intro pl rest hshape hpl
    subst hshape
    have hstx : (STX : Nat) ≠ ETX := by decide
    have hfind : (STX :: (pl ++ ETX :: rest)).findIdx? (fun b => b = ETX) 0
        = some (1 + pl.length) := by
      rw [List.findIdx?_cons]
      rw [if_neg (by simpa using hstx)]
      exact findIdx?_eq_of_first pl hpl rest 1
    simp only [parse_response]
    try dsimp only
    rw [if_neg (by decide : ¬(STX ≠ STX))]
    simp only [hfind]
    have hpay : ((STX :: (pl ++ ETX :: rest)).drop 1).take (1 + pl.length - 1)
        = pl := by
      simp only [List.drop_succ_cons, List.drop_zero]
      have h0 : 1 + pl.length - 1 = pl.length := by omega
      rw [h0]
      exact List.take_left' rfl
    have hsum : (STX :: (pl ++ ETX :: rest)).drop (1 + pl.length + 1) = rest := by
      have h1 : 1 + pl.length + 1 = (pl.length + 1) + 1 := by omega
      rw [h1, List.drop_succ_cons, drop_append_cons]
    rw [hpay, hsum]

/-- Closed witness for `c8_parse_response_cases`: a byte 0x01 first yields the
missing-STX error. -/
theorem c8_parse_response_cases_witness :
    ([0x01] : List Nat) ≠ [] ∧ parse_response [0x01] = .error .missingSTX :=
  ⟨by decide, (c8_parse_response_cases [0x01] (by decide)).1 (by decide)⟩

/-! ## Claim C7 -/

/-- **C7** (confirmed): for every 16-bit address, the BitSet payload is `'E7'`
(bytes 0x45 0x37) followed by the address's *low* byte rendered as 2 ASCII
hex character codes and then the *high* byte rendered as 2 ASCII hex
character codes; in particular `set_bit` at 0x1234 emits the address
characters `"3412"`, not `"1234"`. -/
theorem c7_set_bit_payload (a : Nat) (ha : a < 0x10000) :
    set_bit_payload a =
      [0x45, 0x37,
       hex_char (a % 256 / 16), hex_char (a % 256 % 16),
       hex_char (a / 256 / 16), hex_char (a / 256 % 16)] ∧
    set_bit_payload 0x1234 = [0x45, 0x37, 0x33, 0x34, 0x31, 0x32] := by
  constructor
  · have hand : ∀ x : Nat, x &&& 255 = x % 256 := fun x => by
      simpa using Nat.and_pow_two_sub_one_eq_mod x 8
    have hand15 : ∀ x : Nat, x &&& 15 = x % 16 := fun x => by
      simpa using Nat.and_pow_two_sub_one_eq_mod x 4
    have hshift8 : ∀ x : Nat, x >>> 8 = x / 256 := fun x => by
      simpa using Nat.shiftRight_eq_div_pow x 8
    have hshift4 : ∀ x : Nat, x >>> 4 = x / 16 := fun x => by
      simpa using Nat.shiftRight_eq_div_pow x 4
    simp only [set_bit_payload, int_to_hex_chars, List.range_succ, List.range_zero,
      List.nil_append, List.reverse_cons, List.reverse_nil, List.map_cons,
      List.map_nil, List.append_nil, List.singleton_append, List.cons_append,
      Nat.one_mul, Nat.zero_mul, Nat.shiftRight_zero, hand, hand15, hshift8, hshift4]
    have h2 : a / 256 % 256 = a / 256 := by omega
    rw [h2]
    have h3 : a % 256 / 16 % 16 = a % 256 / 16 := by omega
    have h4 : a / 256 / 16 % 16 = a / 256 / 16 := by omega
    have h5 : a % 256 % 16 = a % 16 := by omega
    have h6 : a % 16 = a % 256 % 16 := by omega
    rw [h3, h4]
  · decide

/-- Closed witness for `c7_set_bit_payload` at address 0x1234: the address
characters come out as `'3','4','1','2'` (ASCII 0x33 0x34 0x31 0x32). -/
theorem c7_set_bit_payload_witness :
    (0x1234 : Nat) < 0x10000 ∧
      set_bit_payload 0x1234 = [0x45, 0x37, 0x33, 0x34, 0x31, 0x32] :=
  ⟨by decide, (c7_set_bit_payload 0x1234 (by decide)).2⟩

/-! ## Claim C10 -/

theorem parse_read_response_take (r : List Nat) :
    parse_read_response r = parse_read_response (r.take (4 * (r.length / 4))) := by
  suffices h : ∀ n (l : List Nat), l.length ≤ n →
      parse_read_response l = parse_read_response (l.take (4 * (l.length / 4))) from
    h r.length r le_rfl
  intro n
  induction n with
  | zero =>
    intro l hl
    have : l = [] := List.eq_nil_of_length_eq_zero (by omega)
    subst this; rfl
  | succ n ih =>
    intro l hl
    match l with
    | [] => rfl
    | [a] => simp [parse_read_response]
    | [a, b] => simp [parse_read_response]
    | [a, b, c] => simp [parse_read_response]
    | a :: b :: c :: d :: rest =>
      have hdiv : (a :: b :: c :: d :: rest).length / 4 = rest.length / 4 + 1 := by
        simp only [List.length_cons]; omega
      rw [hdiv]
      have hmul : 4 * (rest.length / 4 + 1) = 4 * (rest.length / 4) + 4 := by omega
      rw [hmul]
      have htake : (a :: b :: c :: d :: rest).take (4 * (rest.length / 4) + 4)
          = a :: b :: c :: d :: rest.take (4 * (rest.length / 4)) := by
        have h4 : 4 * (rest.length / 4) + 4 = (4 * (rest.length / 4) + 3) + 1 := by omega
        rw [h4, List.take_succ_cons]
        have h3 : 4 * (rest.length / 4) + 3 = (4 * (rest.length / 4) + 2) + 1 := by omega
        rw [h3, List.take_succ_cons]
        have h2 : 4 * (rest.length / 4) + 2 = (4 * (rest.length / 4) + 1) + 1 := by omega
        rw [h2, List.take_succ_cons, List.take_succ_cons]
      rw [htake]
      simp only [parse_read_response]
      have hrest : rest.length ≤ n := by
        simp only [List.length_cons] at hl; omega
      rw [← ih rest hrest]

theorem parse_read_response_length :
    ∀ (r : List Nat) (vs : List Nat), parse_read_response r = .ok vs →
      vs.length = r.length / 4 := by
  suffices h : ∀ n (l : List Nat), l.length ≤ n → ∀ vs,
      parse_read_response l = .ok vs → vs.length = l.length / 4 from
    fun r vs hvs => h r.length r le_rfl vs hvs
  intro n
  induction n with
  | zero =>
    intro l hl vs hvs
    have : l = [] := List.eq_nil_of_length_eq_zero (by omega)
    subst this
    simp only [parse_read_response] at hvs
    cases hvs
    rfl
  | succ n ih =>
    intro l hl vs hvs
    match l, hvs with
    | [], hvs => simp only [parse_read_response] at hvs; cases hvs; rfl
    | [a], hvs => simp only [parse_read_response] at hvs; cases hvs; simp
    | [a, b], hvs => simp only [parse_read_response] at hvs; cases hvs; simp
    | [a, b, c], hvs => simp only [parse_read_response] at hvs; cases hvs; simp
    | a :: b :: c :: d :: rest, hvs =>
      simp only [parse_read_response] at hvs
      cases hg : decodeWordGroup a b c d with
      | none => rw [hg] at hvs; cases hvs
      | some v =>
        rw [hg] at hvs
        cases hrec : parse_read_response rest with
        | error e => rw [hrec] at hvs; cases hvs
        | ok vs' =>
          rw [hrec] at hvs
          cases hvs
          have hrest : rest.length ≤ n := by
            simp only [List.length_cons] at hl; omega
          have := ih rest hrest vs' hrec
          simp only [List.length_cons, this]
          omega

/-- **C10** (corrected): the shared decode loop of `read_memory`,
`read_flash` and `read_dev` ignores the trailing `len mod 4` response
characters completely (the result equals the decode of the truncated
response, so they can neither raise nor affect the values), and whenever the
decode succeeds it returns exactly `⌊len/4⌋` word values.  The original
claim's unconditional "returns exactly ⌊len/4⌋ values" fails when a
*complete* 4-character group is not valid hex (see
`c10_counterexample`). -/
theorem c10_read_decoders (r : List Nat) :
    parse_read_response r = parse_read_response (r.take (4 * (r.length / 4))) ∧
    (∀ vs, parse_read_response r = .ok vs → vs.length = r.length / 4) :=
  ⟨parse_read_response_take r, parse_read_response_length r⟩

/-- **C10** counterexample: on response `"ZZZZ0"` (length 5, not a multiple
of 4) the decoders raise `ValueError` on the complete group `"ZZZZ"` instead
of returning `⌊5/4⌋ = 1` decoded value. -/
theorem c10_counterexample :
    parse_read_response [0x5A, 0x5A, 0x5A, 0x5A, 0x30] = .error .valueError := by
  decide

/-- Closed witness for `c10_read_decoders` on the 5-byte response
`"12340"`: the trailing `'0'` is ignored and exactly one word is decoded. -/
theorem c10_read_decoders_witness :
    parse_read_response [0x31, 0x32, 0x33, 0x34, 0x30]
        = parse_read_response [0x31, 0x32, 0x33, 0x34] ∧
    ∀ vs, parse_read_response [0x31, 0x32, 0x33, 0x34, 0x30] = .ok vs →
      vs.length = 1 :=
  ⟨(c10_read_decoders [0x31, 0x32, 0x33, 0x34, 0x30]).1,
   fun vs h => (c10_read_decoders [0x31, 0x32, 0x33, 0x34, 0x30]).2 vs h⟩

/-! ## Progress lemmas for the disassembler -/

theorem decode_operand_progress (words : List Nat) (index : Nat) (t : Bool)
    (h : index < words.length) :
    1 ≤ (decode_operand words index t).2 ∧ (decode_operand words index t).2 ≤ 2 ∧
      index + (decode_operand words index t).2 ≤ words.length := by
  simp only [decode_operand]
  rw [if_neg (by omega : ¬(words.length ≤ index))]
  cases hop : OPERAND_TYPES ((words.getD index 0 >>> 8) &&& 0xFF) with
  | none => simp only [hop]; omega
  | some typeName =>
    simp only [hop]
    by_cases h1 : words.length ≤ index + 1
    · rw [if_pos h1]
      omega
    · rw [if_neg h1]
      simp only [apply_ite (Prod.snd : String × Nat → Nat), ite_self]
      omega

theorem decode_instruction_tail_progress (words : List Nat) (index : Nat)
    (word lowByte : Nat) (h : index < words.length) :
    1 ≤ (decode_instruction_tail words index word lowByte).2 ∧
      index + (decode_instruction_tail words index word lowByte).2 ≤ words.length := by
  simp only [decode_instruction_tail]
  cases hpc : PROGRAM_CONTROL_INSTRUCTIONS word with
  | some instr =>
    simp only [hpc]
    by_cases h2 : words.length ≤ index + 2
    · rw [if_pos h2]
      omega
    · rw [if_neg h2]
      have := decode_operand_progress words (index + 1) false (by omega)
      omega
  | none =>
    simp only [hpc]
    by_cases hT : word &&& 0xFF00 = 0x0600
    · rw [if_pos hT]
      by_cases h2 : words.length ≤ index + 2
      · rw [if_pos h2]
        omega
      · rw [if_neg h2]
        have := decode_operand_progress words (index + 1) true (by omega)
        omega
    · rw [if_neg hT]
      by_cases hC : word &&& 0xFF00 = 0x0E00
      · rw [if_pos hC]
        by_cases h2 : words.length ≤ index + 2
        · rw [if_pos h2]
          omega
        · rw [if_neg h2]
          have := decode_operand_progress words (index + 1) true (by omega)
          omega
      · rw [if_neg hC]
        by_cases hR : word = 0x000C
        · rw [if_pos hR]
          by_cases h2 : words.length ≤ index + 1
          · rw [if_pos h2]
            omega
          · rw [if_neg h2]
            simp only [apply_ite (Prod.snd : String × Nat → Nat), ite_self]
            omega
        · rw [if_neg hR]
          omega

theorem decode_instruction_multi_progress (words : List Nat) (index : Nat)
    (word lowByte : Nat) (h : index < words.length) :
    1 ≤ (decode_instruction_multi words index word lowByte).2 ∧
      index + (decode_instruction_multi words index word lowByte).2 ≤ words.length := by
  simp only [decode_instruction_multi]
  cases hext : EXTENDED_BIT_INSTRUCTIONS word with
  | some instr =>
    simp only [hext]
    by_cases h1 : words.length ≤ index + 1
    · rw [if_pos h1]
      omega
    · rw [if_neg h1]
      omega
  | none =>
  simp only [hext]
  cases hpul : PULSED_INSTRUCTIONS word with
  | some instr =>
    simp only [hpul]
    by_cases h1 : words.length ≤ index + 1
    · rw [if_pos h1]
      omega
    · rw [if_neg h1]
      omega
  | none =>
  simp only [hpul]
  cases hcmp : COMPARE_INSTRUCTIONS word with
  | some instr =>
    simp only [hcmp]
    by_cases h4 : words.length ≤ index + 4
    · rw [if_pos h4]
      omega
    · rw [if_neg h4]
      obtain ⟨ha1, ha2, ha3⟩ := decode_operand_progress words (index + 1) false (by omega)
      obtain ⟨hb1, hb2, hb3⟩ := decode_operand_progress words
        (index + 1 + (decode_operand words (index + 1) false).2) false (by omega)
      omega
  | none =>
  simp only [hcmp]
  cases happ : APPLICATION_INSTRUCTIONS word with
  | some instr =>
    simp only [happ]
    by_cases hmov : instr = "MOV" ∨ instr = "MOVP"
    · rw [if_pos hmov]
      by_cases h4 : words.length ≤ index + 4
      · rw [if_pos h4]
        omega
      · rw [if_neg h4]
        obtain ⟨ha1, ha2, ha3⟩ := decode_operand_progress words (index + 1) true (by omega)
        obtain ⟨hb1, hb2, hb3⟩ := decode_operand_progress words
          (index + 1 + (decode_operand words (index + 1) true).2) false (by omega)
        omega
    · rw [if_neg hmov]
      by_cases hadd : instr ∈ ["ADD", "ADDP", "SUB", "SUBP", "MUL", "MULP", "DIV", "DIVP"]
      · rw [if_pos hadd]
        by_cases h6 : words.length ≤ index + 6
        · rw [if_pos h6]
          omega
        · rw [if_neg h6]
          obtain ⟨ha1, ha2, ha3⟩ := decode_operand_progress words (index + 1) false (by omega)
          obtain ⟨hb1, hb2, hb3⟩ := decode_operand_progress words
            (index + 1 + (decode_operand words (index + 1) false).2) false (by omega)
          obtain ⟨hc1, hc2, hc3⟩ := decode_operand_progress words
            (index + 1 + (decode_operand words (index + 1) false).2
              + (decode_operand words
                  (index + 1 + (decode_operand words (index + 1) false).2) false).2)
            false (by omega)
          omega
      · rw [if_neg hadd]
        exact decode_instruction_tail_progress words index word lowByte h
  | none =>
  simp only [happ]
  exact decode_instruction_tail_progress words index word lowByte h

/-- Every decode step on an in-range index consumes between 1 word and the
rest of the list. -/
theorem decode_progress (words : List Nat) (index : Nat)
    (h : index < words.length) :
    1 ≤ (decode_instruction words index).2 ∧
      index + (decode_instruction words index).2 ≤ words.length := by
  simp only [decode_instruction]
  rw [if_neg (by omega : ¬(words.length ≤ index))]
  cases hsp : SPECIAL_INSTRUCTIONS (words.getD index 0) with
  | some instr => simp only [hsp]; omega
  | none =>
  simp only [hsp]
  cases hst : STACK_LOGIC_INSTRUCTIONS (words.getD index 0) with
  | some instr => simp only [hst]; omega
  | none =>
  simp only [hst]
  cases hbb : BASIC_BIT_INSTRUCTIONS ((words.getD index 0 >>> 8) &&& 0xFF) with
  | some pair =>
    obtain ⟨instr, operandType⟩ := pair
    simp only [hbb]
    simp only [apply_ite (Prod.snd : String × Nat → Nat), ite_self]
    omega
  | none =>
  simp only [hbb]
  by_cases hlab : (words.getD index 0 >>> 8) &&& 0xFF &&& 0xF0 = 0xB0
  · rw [if_pos hlab]
    omega
  · rw [if_neg hlab]
    by_cases hend : words.length ≤ index + 1
    · rw [if_pos hend]
      omega
    · rw [if_neg hend]
      exact decode_instruction_multi_progress words index (words.getD index 0)
        (words.getD index 0 &&& 0xFF) h

/-- The words emitted by the disassembly loop from `index` onward, glued
back together, are exactly the input from `index` onward (for any fuel
exceeding the remaining length). -/
theorem disassemble_loop_flatten (words : List Nat) :
    ∀ (fuel index : Nat), words.length - index < fuel →
      ((disassemble_loop words index fuel).map Prod.fst).flatten
        = words.drop index := by
  intro fuel
  induction fuel with
  | zero => intro index hfuel; omega
  | succ fuel ih =>
    intro index hfuel
    simp only [disassemble_loop]
    by_cases hend : words.length ≤ index
    · rw [if_pos hend]
      simp [List.drop_eq_nil_of_le hend]
    · rw [if_neg hend]
      obtain ⟨hc1, hc2⟩ := decode_progress words index (by omega)
      rw [if_neg (by omega : ¬((decode_instruction words index).2 = 0))]
      simp only [List.map_cons, List.flatten_cons]
      rw [ih (index + (decode_instruction words index).2) (by omega)]
      rw [← List.drop_drop, List.take_append_drop]

/-- String-literal reassociation for the rendered `MOV` instruction. -/
theorem mov_string_eq (A B : String) :
    "MOV " ++ ("K" ++ A) ++ " " ++ ("D" ++ B) = "MOV K" ++ A ++ " D" ++ B := by
  have h1 : ("MOV " ++ "K" : String) = "MOV K" := rfl
  rw [← String.append_assoc "MOV " "K" A, h1, String.append_assoc,
    String.append_assoc]
  have h2 : (" " ++ ("D" ++ B) : String) = " D" ++ B := by
    rw [← String.append_assoc]
    rfl
  rw [h2]
  simp [String.append_assoc]

/-! ## Claim C9 -/

/-- **C9** (confirmed): the per-instruction word slices emitted by
`disassemble_program`, concatenated in output order, are exactly the input
word list — every word belongs to exactly one emitted instruction, none is
skipped and none is duplicated. -/
theorem c9_words_partition (words : List Nat) :
    ((disassemble_program words).map Prod.fst).flatten = words := by
  have h := disassemble_loop_flatten words (words.length + 1) 0 (by omega)
  simpa [disassemble_program] using h

/-! ## Claim C5 -/

/-- **C5** (confirmed): on every in-range index, a disassembly step
consumes at least 1 word and never more than the words remaining, so the
driving loop always terminates with the whole list decoded; an undecodable
word such as 0xFFFE becomes `Unknown(FFFE)` consuming exactly 1 word, and
the whole-program run on it terminates with that single instruction. -/
theorem c5_progress (words : List Nat) (index : Nat) (h : index < words.length) :
    (1 ≤ (decode_instruction words index).2 ∧
      index + (decode_instruction words index).2 ≤ words.length) ∧
    decode_instruction [0xFFFE] 0 = ("Unknown(FFFE)", 1) ∧
    disassemble_program [0xFFFE] = [([0xFFFE], "Unknown(FFFE)")] :=
  ⟨decode_progress words index h, by decide, by decide⟩

/-- Closed witness for `c5_progress` at the one-word program `[0x000F]`. -/
theorem c5_progress_witness :
    0 < ([0x000F] : List Nat).length ∧
    (1 ≤ (decode_instruction [0x000F] 0).2 ∧
      0 + (decode_instruction [0x000F] 0).2 ≤ ([0x000F] : List Nat).length) :=
  ⟨by decide, (c5_progress [0x000F] 0 (by decide)).1⟩

/-! ## Claim C6 -/

/-- **C6** (confirmed): on any word list of length ≥ 5 whose first word is
the `MOV` opcode 0x0028, whose second word is constant-tagged (high byte
0x80) and whose fourth word is data-register-tagged (high byte 0x82),
`decode_instruction` consumes exactly 5 words and renders
`"MOV K<value> D<addr>"`, where the constant uses the timer/counter layout
`low_byte(w1) + (w2 & 0xFF) * 0x100` and the register address is
`(w4 << 8) | low_byte(w3)`. -/
theorem c6_mov_decode (ws : List Nat) (h5 : 5 ≤ ws.length)
    (h0 : ws.getD 0 0 = 0x0028)
    (h1 : (ws.getD 1 0 >>> 8) &&& 0xFF = 0x80)
    (h3 : (ws.getD 3 0 >>> 8) &&& 0xFF = 0x82) :
    decode_instruction ws 0
      = ("MOV K" ++ Nat.repr ((ws.getD 1 0 &&& 0xFF) + (ws.getD 2 0 &&& 0xFF) * 0x100)
          ++ " D" ++ Nat.repr ((ws.getD 4 0 <<< 8) ||| (ws.getD 3 0 &&& 0xFF)), 5) := by
  match ws, h5 with
  | w0 :: w1 :: w2 :: w3 :: w4 :: rest, _ =>
    simp only [List.getD_cons_zero, List.getD_cons_succ] at h0 h1 h3
    subst h0
    simp only [List.getD_cons_zero, List.getD_cons_succ]
    rw [show decode_instruction (0x0028 :: w1 :: w2 :: w3 :: w4 :: rest) 0
        = ("MOV " ++ ("K" ++ Nat.repr ((w1 &&& 0xFF) + (w2 &&& 0xFF) * 0x100))
            ++ " " ++ ("D" ++ Nat.repr ((w4 <<< 8) ||| (w3 &&& 0xFF))), 5) from ?_]
    · rw [mov_string_eq]
    · simp [decode_instruction, decode_instruction_multi, decode_operand,
        SPECIAL_INSTRUCTIONS, STACK_LOGIC_INSTRUCTIONS, BASIC_BIT_INSTRUCTIONS,
        EXTENDED_BIT_INSTRUCTIONS, PULSED_INSTRUCTIONS, COMPARE_INSTRUCTIONS,
        APPLICATION_INSTRUCTIONS, OPERAND_TYPES, h1, h3, mov_string_eq]

/-- Closed witness for `c6_mov_decode`: the program
`[0x0028, 0x8005, 0x0003, 0x8201, 0x0002]` decodes to `MOV K773 D513` in
exactly 5 words. -/
theorem c6_mov_decode_witness :
    (5 ≤ ([0x0028, 0x8005, 0x0003, 0x8201, 0x0002] : List Nat).length) ∧
    decode_instruction [0x0028, 0x8005, 0x0003, 0x8201, 0x0002] 0
      = ("MOV K773 D513", 5) :=
  ⟨by decide,
   by
    have h := c6_mov_decode [0x0028, 0x8005, 0x0003, 0x8201, 0x0002]
      (by decide) (by decide) (by decide) (by decide)
    exact h.trans (by decide)⟩

/-! ## Helper lemmas about the session state -/

theorem getPending_setPending (st : SessionState) (who : String)
    (v : Option (List Nat)) : getPending (setPending st who v) who = v := by
  by_cases h : who = "host" <;> simp [getPending, setPending, h]

theorem getPending_setLast (st : SessionState) (v : Option String)
    (who : String) : getPending (setLast st v) who = getPending st who := by
  by_cases h : who = "host" <;> simp [getPending, setLast, h]

theorem lastHostRequest_setPending (st : SessionState) (who : String)
    (v : Option (List Nat)) :
    (setPending st who v).lastHostRequest = st.lastHostRequest := by
  by_cases h : who = "host" <;> simp [setPending, h]

/-! ## Claim C2 -/

/-- **C2** (counterexample): a host BitSet request frame
(`STX "E71400" ETX "44"`) followed by the device single byte 0x06 produces
records labelled `"BS"` then `"ACK"` — the ACK record is *not* relabelled
`"BS"` as the claim requires. -/
theorem c2_counterexample :
    (processChunks {} [("host", [2, 69, 55, 49, 52, 48, 48, 3, 52, 52]),
        ("plc", [6])]).map (fun p => p.2.map (fun r => r.msg.what))
      = .ok ["BS", "ACK"] ∧
    (processChunks {} [("host", [2, 69, 55, 49, 52, 48, 48, 3, 52, 52]),
        ("plc", [6])]).map (fun p => p.2.map (fun r => r.msg.what))
      ≠ .ok ["BS", "BS"] := by
  constructor <;> decide

/-- **C2** (amended): a device-direction single-byte 0x06 chunk arriving
with no pending device frame is always emitted with kind `"ACK"`, whatever
`last_host_request` holds (the `last_host_request` fallback of
`parse_message` only applies to framed device messages echoing a
DR/MR/TYP/VER request), and the state is unchanged. -/
theorem c2_ack_label (st : SessionState) (src : String) (hsrc : src ≠ "host")
    (hpend : st.pendingPlc = none) :
    processRecord st src [ACK]
      = .ok (st, some { who := "plc", msg := { what := "ACK" }, capdata := "06" }) := by
  have hwho : whoOf src = "plc" := by simp [whoOf, hsrc]
  obtain ⟨ph, pp, lhr⟩ := st
  simp only at hpend
  subst hpend
  show processRecordBody ⟨ph, none, lhr⟩ (whoOf src) [ACK] = _
  rw [hwho]
  rfl

/-- Closed witness for `c2_ack_label`: even right after a host BitSet
request (`last_host_request = "BS"`), the device 0x06 byte is emitted as
`"ACK"`. -/
theorem c2_ack_label_witness :
    ("plc" : String) ≠ "host" ∧
    processRecord { lastHostRequest := some "BS" } "plc" [ACK]
      = .ok ({ lastHostRequest := some "BS" },
          some { who := "plc", msg := { what := "ACK" }, capdata := "06" }) :=
  ⟨by decide, c2_ack_label { lastHostRequest := some "BS" } "plc" (by decide) rfl⟩

/-! ## Claim C3 -/

/-- **C3** (counterexample): the device chunks `[STX, 'E', ETX]` then
`['0', '0']` concatenate to a buffer whose first ETX is followed by 2
checksum bytes, yet the reconstructor emits *two* records (`"U_E0"` for the
first chunk, `"U_00"` for the second): the first chunk already contains an
ETX, so it is processed immediately instead of being stored as a pending
frame. -/
theorem c3_counterexample :
    (processChunks {} [("plc", [2, 69, 3]), ("plc", [48, 48])]).map
        (fun p => (p.2.length, p.1.pendingPlc))
      = .ok (2, none) := by
  decide

/-- **C3** (amended): when the first device-direction chunk contains STX
but no ETX (so it opens a pending frame) and the concatenation of the two
chunks contains the first ETX with at least 2 bytes after it, and the
classification of the completed frame does not raise, the reconstructor
emits no record for the first chunk and exactly one record for the second,
and the pending slot for that direction is empty afterwards. -/
theorem c3_single_record (st : SessionState) (src : String) (c1 c2 : List Nat)
    (hpend : getPending st (whoOf src) = none)
    (h1stx : STX ∈ c1) (h1etx : ETX ∉ c1)
    (hetx : ETX ∈ c1 ++ c2)
    (hck : (c1 ++ c2).indexOf ETX + 3 ≤ (c1 ++ c2).length)
    (p : ParsedMsg)
    (hok : parse_message (c1 ++ c2)
      (if whoOf src = "plc" then st.lastHostRequest else none) (whoOf src) = .ok p) :
    processRecord st src c1 = .ok (setPending st (whoOf src) (some c1), none) ∧
    getPending (setPending st (whoOf src) (some c1)) (whoOf src) = some c1 ∧
    ∃ st2,
      processRecord (setPending st (whoOf src) (some c1)) src c2
        = .ok (st2, some ⟨whoOf src, p, bytes_to_hex_space_separated (c1 ++ c2)⟩) ∧
      getPending st2 (whoOf src) = none := by
  refine ⟨?_, getPending_setPending st (whoOf src) (some c1), ?_⟩
  · simp only [processRecord, processRecordBody]
    simp only [hpend]
    rw [if_pos ⟨h1stx, h1etx⟩]
  · simp only [processRecord, processRecordBody]
    simp only [getPending_setPending]
    rw [if_pos ⟨List.mem_append_left c2 h1stx, hetx⟩]
    rw [if_pos hck]
    simp only [lastHostRequest_setPending]
    simp only [hok]
    refine ⟨_, rfl, ?_⟩
    rw [getPending_setLast, getPending_setPending]

/-- Closed witness for `c3_single_record`: chunk `[STX, 'E', '7']` then
`['1','4','0','0', ETX, '4','4']` yields no record, then one `"BS"`
record, with the pending slot cleared. -/
theorem c3_single_record_witness :
    ((STX : Nat) ∈ ([2, 69, 55] : List Nat)) ∧
    ((ETX : Nat) ∉ ([2, 69, 55] : List Nat)) ∧
    (processRecord {} "plc" [2, 69, 55]
        = .ok (setPending {} (whoOf "plc") (some [2, 69, 55]), none) ∧
      getPending (setPending {} (whoOf "plc") (some [2, 69, 55])) (whoOf "plc")
        = some [2, 69, 55] ∧
      ∃ st2,
        processRecord (setPending {} (whoOf "plc") (some [2, 69, 55])) "plc"
            [49, 52, 48, 48, 3, 52, 52]
          = .ok (st2, some
              ⟨whoOf "plc",
               ⟨"BS", some "0014", none, some "44", some "E71400", none⟩,
               bytes_to_hex_space_separated
                 ([2, 69, 55] ++ [49, 52, 48, 48, 3, 52, 52])⟩) ∧
        getPending st2 (whoOf "plc") = none) :=
  ⟨by decide, by decide,
   c3_single_record {} "plc" [2, 69, 55] [49, 52, 48, 48, 3, 52, 52]
     (by decide) (by decide) (by decide) (by decide) (by decide)
     ⟨"BS", some "0014", none, some "44", some "E71400", none⟩
     (by decide)⟩

/-! ## Claim C4 -/

/-- **C4** (counterexample): a host `E10` (data-register *write*) frame is
classified `"DW"` but does **not** update `last_host_request` (it stays
`none`), although the claim says every host write operation updates it. -/
theorem c4_counterexample :
    (processChunks {} [("host",
        [2, 69, 49, 48, 48, 48, 48, 48, 48, 50, 48, 49, 48, 48, 3, 56, 67])]).map
        (fun p => (p.1.lastHostRequest, p.2.map (fun r => r.msg.what)))
      = .ok (none, ["DW"]) := by
  decide

/-- **C4** (amended): after processing any chunk, `last_host_request` is
updated exactly when the chunk emitted a host-originated record whose
classified kind is in `{DR, MR, TYP, VER, BS, BC}` — the reads, the
type/version queries and the bit operations, but *not* the writes
(`DW`/`MW`); in every other case (no record, device record, or any other
kind, including `ACK` and `ENQ`) it is left unchanged. -/
theorem c4_last_host_request (st : SessionState) (src : String)
    (capdata : List Nat) (st' : SessionState) (orec : Option Record)
    (h : processRecord st src capdata = .ok (st', orec)) :
    st'.lastHostRequest =
      match orec with
      | some rec =>
        if rec.who = "host" ∧ rec.msg.what ∈ requestKinds then some rec.msg.what
        else st.lastHostRequest
      | none => st.lastHostRequest := by
  simp only [processRecord, processRecordBody] at h
  generalize whoOf src = who at h
  cases hpend : getPending st who with
  | some pendingBytes =>
    simp only [hpend] at h
    by_cases hc : STX ∈ pendingBytes ++ capdata ∧ ETX ∈ pendingBytes ++ capdata
    · rw [if_pos hc] at h
      by_cases hck : (pendingBytes ++ capdata).indexOf ETX + 3
          ≤ (pendingBytes ++ capdata).length
      · rw [if_pos hck] at h
        cases hpm : parse_message (pendingBytes ++ capdata)
            (if who = "plc" then st.lastHostRequest else none) who with
        | error e =>
          simp only [hpm] at h
          exact Except.noConfusion h
        | ok parsed =>
          simp only [hpm] at h
          rw [Except.ok.injEq, Prod.mk.injEq] at h
          obtain ⟨h1, h2⟩ := h
          subst h1
          subst h2
          by_cases hup : who = "host" ∧ parsed.what ∈ requestKinds
          · simp only [if_pos hup, setLast]
          · simp only [if_neg hup, setLast]
      · rw [if_neg hck] at h
        rw [Except.ok.injEq, Prod.mk.injEq] at h
        obtain ⟨h1, h2⟩ := h
        subst h1
        subst h2
        simp only [lastHostRequest_setPending]
    · rw [if_neg hc] at h
      rw [Except.ok.injEq, Prod.mk.injEq] at h
      obtain ⟨h1, h2⟩ := h
      subst h1
      subst h2
      simp only [lastHostRequest_setPending]
  | none =>
    simp only [hpend] at h
    by_cases hc : STX ∈ capdata ∧ ETX ∉ capdata
    · rw [if_pos hc] at h
      rw [Except.ok.injEq, Prod.mk.injEq] at h
      obtain ⟨h1, h2⟩ := h
      subst h1
      subst h2
      simp only [lastHostRequest_setPending]
    · rw [if_neg hc] at h
      cases hpm : parse_message capdata
          (if who = "plc" ∧
              ¬(capdata.length = 1 ∧ capdata.getD 0 0 = ACK) then
            st.lastHostRequest
          else none) who with
      | error e =>
        simp only [hpm] at h
        exact Except.noConfusion h
      | ok parsed =>
        simp only [hpm] at h
        rw [Except.ok.injEq, Prod.mk.injEq] at h
        obtain ⟨h1, h2⟩ := h
        subst h1
        subst h2
        by_cases hup : who = "host" ∧ parsed.what ∈ requestKinds
        · simp only [if_pos hup, setLast]
        · simp only [if_neg hup, setLast]

/-- Closed witness for `c4_last_host_request`: the host BitSet frame from
`c2_counterexample` emits a host `"BS"` record and sets
`last_host_request := "BS"`. -/
theorem c4_last_host_request_witness :
    processRecord {} "host" [2, 69, 55, 49, 52, 48, 48, 3, 52, 52]
      = .ok (⟨none, none, some "BS"⟩,
          some ⟨"host", ⟨"BS", some "0014", none, some "44", some "E71400", none⟩,
                "02 45 37 31 34 30 30 03 34 34"⟩) ∧
    (⟨none, none, some "BS"⟩ : SessionState).lastHostRequest = some "BS" :=
  ⟨by decide,
   by
    have h := c4_last_host_request {} "host" [2, 69, 55, 49, 52, 48, 48, 3, 52, 52]
      ⟨none, none, some "BS"⟩
      (some ⟨"host", ⟨"BS", some "0014", none, some "44", some "E71400", none⟩,
             "02 45 37 31 34 30 30 03 34 34"⟩)
      (by decide)
    exact h.trans (by decide)⟩

end FxFiddle
